import Mathlib

/-!
Shallow embedding of `src/lib/moonPhases.ts` from the lunar-market repository.

A JS `Date` is modelled by the two observations the module reads from it:
`getTime()` (milliseconds since the Unix epoch, a finite JS number, modelled
exactly as a rational) and `getMonth()` (an integer in `0..11`).  JS number
arithmetic is modelled as exact rational arithmetic; the transcendental
`Math.cos` is modelled as `Real.cos` on the reals.  The JS remainder operator
`%` on finite operands is the truncated-division remainder
`x % p = x - p * trunc (x / p)`, which carries the sign of `x`.  A JS array
read `a[i]` evaluates to `undefined` when `i` is out of range; array reads are
modelled by `Option`, with `none` standing for `undefined`.
-/

namespace LunarMarket

/-- Truncation toward zero, the rounding JS `%` applies to the quotient. -/
def jsTrunc (q : ℚ) : ℤ := if 0 ≤ q then ⌊q⌋ else ⌈q⌉

/-- The JS remainder `x % p` (for a positive modulus `p`). -/
def jsMod (x p : ℚ) : ℚ := x - p * jsTrunc (x / p)

/-- The `((x % p) + p) % p` normalisation pattern used by the source. -/
def doubleMod (x p : ℚ) : ℚ := jsMod (jsMod x p + p) p

theorem jsMod_of_nonneg {x p : ℚ} (hx : 0 ≤ x) (hp : 0 < p) :
    jsMod x p = p * Int.fract (x / p) := by
  have hp0 : p ≠ 0 := hp.ne'
  have hq : 0 ≤ x / p := div_nonneg hx hp.le
  have hxp : p * (x / p) = x := by field_simp
  unfold jsMod jsTrunc
  rw [if_pos hq, ← Int.self_sub_floor, mul_sub, hxp]

theorem jsMod_of_neg {x p : ℚ} (hx : x < 0) (hp : 0 < p) :
    jsMod x p = -(p * Int.fract (-(x / p))) := by
  have hp0 : p ≠ 0 := hp.ne'
  have hq : ¬ 0 ≤ x / p := not_le.mpr (div_neg_of_neg_of_pos hx hp)
  have hxp : p * (x / p) = x := by field_simp
  have hceil : ⌈x / p⌉ = -⌊-(x / p)⌋ := by
    conv_lhs => rw [← neg_neg (x / p)]
    exact Int.ceil_neg
  unfold jsMod jsTrunc
  rw [if_neg hq, ← Int.self_sub_floor, hceil]
  push_cast
  linarith [hxp]

theorem jsMod_nonneg_bounds {x p : ℚ} (hx : 0 ≤ x) (hp : 0 < p) :
    0 ≤ jsMod x p ∧ jsMod x p < p := by
  rw [jsMod_of_nonneg hx hp]
  refine ⟨mul_nonneg hp.le (Int.fract_nonneg _), ?_⟩
  nlinarith [Int.fract_lt_one (x / p)]

theorem jsMod_neg_bounds {x p : ℚ} (hx : x < 0) (hp : 0 < p) :
    -p < jsMod x p ∧ jsMod x p ≤ 0 := by
  rw [jsMod_of_neg hx hp]
  constructor
  · nlinarith [Int.fract_lt_one (-(x / p))]
  · exact neg_nonpos_of_nonneg (mul_nonneg hp.le (Int.fract_nonneg _))

theorem doubleMod_eq {x p : ℚ} (hp : 0 < p) :
    doubleMod x p = p * Int.fract (x / p) := by
  have hp0 : p ≠ 0 := hp.ne'
  unfold doubleMod
  rcases le_or_lt 0 x with hx | hx
  · rw [jsMod_of_nonneg hx hp]
    have hf0 : (0:ℚ) ≤ Int.fract (x / p) := Int.fract_nonneg _
    have hnn : 0 ≤ p * Int.fract (x / p) + p := by nlinarith
    rw [jsMod_of_nonneg hnn hp]
    have harg : (p * Int.fract (x / p) + p) / p = Int.fract (x / p) + ((1:ℤ):ℚ) := by
      push_cast
      field_simp
      ring
    rw [harg, Int.fract_add_int, Int.fract_fract]
  · rw [jsMod_of_neg hx hp]
    by_cases h0 : Int.fract (-(x / p)) = 0
    · have hq0 : Int.fract (x / p) = 0 := Int.fract_neg_eq_zero.mp h0
      rw [h0, hq0, mul_zero, neg_zero, zero_add]
      rw [jsMod_of_nonneg hp.le hp, div_self hp0, Int.fract_one, mul_zero]
    · have hf0 : 0 < Int.fract (-(x / p)) :=
        lt_of_le_of_ne (Int.fract_nonneg _) (Ne.symm h0)
      have hf1 : Int.fract (-(x / p)) < 1 := Int.fract_lt_one _
      have hq : Int.fract (x / p) = 1 - Int.fract (-(x / p)) := by
        have h := Int.fract_neg h0
        rwa [neg_neg] at h
      have hnn : 0 ≤ -(p * Int.fract (-(x / p))) + p := by nlinarith
      rw [jsMod_of_nonneg hnn hp]
      have harg : (-(p * Int.fract (-(x / p))) + p) / p = 1 - Int.fract (-(x / p)) := by
        field_simp
        ring
      have hself : Int.fract (1 - Int.fract (-(x / p))) = 1 - Int.fract (-(x / p)) :=
        Int.fract_eq_self.mpr ⟨by linarith, by linarith⟩
      rw [harg, hself, hq]

theorem doubleMod_nonneg {x p : ℚ} (hp : 0 < p) : 0 ≤ doubleMod x p := by
  rw [doubleMod_eq hp]
  exact mul_nonneg hp.le (Int.fract_nonneg _)

theorem doubleMod_lt {x p : ℚ} (hp : 0 < p) : doubleMod x p < p := by
  rw [doubleMod_eq hp]
  nlinarith [Int.fract_lt_one (x / p)]

theorem doubleMod_add_self {x p : ℚ} (hp : 0 < p) :
    doubleMod (x + p) p = doubleMod x p := by
  have hp0 : p ≠ 0 := hp.ne'
  rw [doubleMod_eq hp, doubleMod_eq hp]
  have harg : (x + p) / p = x / p + ((1:ℤ):ℚ) := by
    push_cast
    field_simp
  rw [harg, Int.fract_add_int]

theorem jsMod_add_nat_mul {x p : ℚ} (hx : 0 ≤ x) (hp : 0 < p) (k : ℕ) :
    jsMod (x + p * k) p = jsMod x p := by
  have hp0 : p ≠ 0 := hp.ne'
  have hx2 : 0 ≤ x + p * k := add_nonneg hx (mul_nonneg hp.le (Nat.cast_nonneg k))
  rw [jsMod_of_nonneg hx hp, jsMod_of_nonneg hx2 hp]
  have harg : (x + p * k) / p = x / p + ((k:ℤ):ℚ) := by
    push_cast
    field_simp
    ring
  rw [harg, Int.fract_add_int]

theorem doubleMod_cases {x p : ℚ} (hp : 0 < p) :
    doubleMod x p = jsMod x p ∨ doubleMod x p = jsMod x p + p := by
  rcases le_or_lt 0 x with hx | hx
  · left
    rw [doubleMod_eq hp, jsMod_of_nonneg hx hp]
  · by_cases h0 : Int.fract (-(x / p)) = 0
    · left
      rw [doubleMod_eq hp, jsMod_of_neg hx hp, h0, Int.fract_neg_eq_zero.mp h0]
      ring
    · right
      rw [doubleMod_eq hp, jsMod_of_neg hx hp]
      have hq : Int.fract (x / p) = 1 - Int.fract (-(x / p)) := by
        have h := Int.fract_neg h0
        rwa [neg_neg] at h
      rw [hq]
      ring

/-- Interface `MoonPhaseData` of the source.  The TS field types are all
`number` except for the strings; `zodiac` is declared `string` in TS but the
runtime value can be `undefined` (an out-of-range array read), so it is
modelled as `Option String`. -/
structure MoonPhaseData where
  phase : ℚ
  age : ℚ
  phaseName : String
  illumination : ℝ
  distance : ℝ
  zodiac : Option String
  moonName : Option String

/-- The two observations `calculateMoonPhase` makes of its `Date` argument:
`getTime()` in milliseconds since the Unix epoch and `getMonth()` in `0..11`. -/
structure JSDate where
  time : ℚ
  month : Fin 12

/-- Synodic month in days (source constant `LUNAR_CYCLE`). -/
def LUNAR_CYCLE : ℚ := 29.53058867

/-- Perigee in km (source constant `LUNAR_DISTANCE_MIN`). -/
def LUNAR_DISTANCE_MIN : ℚ := 356500

/-- Apogee in km (source constant `LUNAR_DISTANCE_MAX`). -/
def LUNAR_DISTANCE_MAX : ℚ := 406700

/-- `Date.UTC(2024, 0, 11, 11, 57, 0)` in ms: 2024-01-11T11:57:00Z,
the reference new moon (source constant `KNOWN_NEW_MOON`). -/
def KNOWN_NEW_MOON : ℚ := 1704974220000

/-- `1000 * 60 * 60 * 24` milliseconds per day. -/
def msPerDay : ℚ := 1000 * 60 * 60 * 24

/-- `(date.getTime() - KNOWN_NEW_MOON.getTime()) / (1000*60*60*24)`. -/
def daysSinceNewMoon (date : JSDate) : ℚ := (date.time - KNOWN_NEW_MOON) / msPerDay

/-- `getPhaseName` of the source: bucket the phase fraction into 8 labels. -/
def getPhaseName (phase : ℚ) : String :=
  if phase < 0.0625 ∨ 0.9375 ≤ phase then "New Moon"
  else if phase < 0.1875 then "Waxing Crescent"
  else if phase < 0.3125 then "First Quarter"
  else if phase < 0.4375 then "Waxing Gibbous"
  else if phase < 0.5625 then "Full Moon"
  else if phase < 0.6875 then "Waning Gibbous"
  else if phase < 0.8125 then "Last Quarter"
  else "Waning Crescent"

/-- The 12-element zodiac array of `getZodiacSign`. -/
def zodiacs : List String :=
  ["Aries", "Taurus", "Gemini", "Cancer", "Leo", "Virgo",
   "Libra", "Scorpio", "Sagittarius", "Capricorn", "Aquarius", "Pisces"]

/-- `Date.UTC(2024, 0, 1)` in ms: the zodiac reference date 2024-01-01T00:00:00Z. -/
def REF_DATE : ℚ := 1704067200000

/-- Sidereal month in days, local constant of `getZodiacSign`. -/
def siderealMonth : ℚ := 27.321661

/-- Elapsed days from the zodiac reference date, as computed in `getZodiacSign`. -/
def daysSinceRef (t : ℚ) : ℚ := (t - REF_DATE) / msPerDay

/-- `((daysSinceRef / siderealMonth) * 12 + 9) % 12` of the source. -/
def zodiacPosition (t : ℚ) : ℚ :=
  jsMod (daysSinceRef t / siderealMonth * 12 + 9) 12

/-- `getZodiacSign` of the source: `zodiacs[Math.floor(zodiacPosition)]`,
where an out-of-range index yields `undefined` (here `none`).
`Math.floor` rounds toward negative infinity. -/
def getZodiacSign (t : ℚ) : Option String :=
  if ⌊zodiacPosition t⌋ < 0 then none else zodiacs.get? (⌊zodiacPosition t⌋).toNat

/-- The month-indexed table of `getSpecialMoonName`; the TS record has an
entry for every month `0..11`, so the `|| null` fallback of the source can
never be taken and does not appear here. -/
def moonNames : Fin 12 → String
  | 0 => "Wolf Moon"
  | 1 => "Snow Moon"
  | 2 => "Worm Moon"
  | 3 => "Pink Moon"
  | 4 => "Flower Moon"
  | 5 => "Strawberry Moon"
  | 6 => "Buck Moon"
  | 7 => "Sturgeon Moon"
  | 8 => "Harvest Moon"
  | 9 => "Hunter\x27s Moon"
  | 10 => "Beaver Moon"
  | 11 => "Cold Moon"

/-- `getSpecialMoonName` of the source: `null` unless the phase name contains
the substring `"Full"` (JS `String.prototype.includes`), else the month table
entry. -/
def getSpecialMoonName (month : Fin 12) (phName : String) : Option String :=
  if "Full".toList <:+: phName.toList then some (moonNames month) else none

/-- Illumination `(1 - Math.cos(phase * 2 * Math.PI)) / 2 * 100`. -/
noncomputable def illuminationOf (phase : ℚ) : ℝ :=
  (1 - Real.cos ((phase : ℝ) * 2 * Real.pi)) / 2 * 100

/-- `(daysSinceNewMoon % 27.55) / 27.55` — note the single remainder. -/
def anomalisticPhase (d : ℚ) : ℚ := jsMod d 27.55 / 27.55

/-- Distance `LUNAR_DISTANCE_MIN + (1 - Math.cos(anomalisticPhase * 2 * Math.PI)) / 2 * distanceRange`. -/
noncomputable def distanceOf (d : ℚ) : ℝ :=
  (LUNAR_DISTANCE_MIN : ℝ) +
    (1 - Real.cos ((anomalisticPhase d : ℝ) * 2 * Real.pi)) / 2 *
      ((LUNAR_DISTANCE_MAX : ℝ) - (LUNAR_DISTANCE_MIN : ℝ))

/-- `calculateMoonPhase` of the source. -/
noncomputable def calculateMoonPhase (date : JSDate) : MoonPhaseData :=
  let d := daysSinceNewMoon date
  let age := doubleMod d LUNAR_CYCLE
  let phase := age / LUNAR_CYCLE
  { phase := phase
    age := age
    phaseName := getPhaseName phase
    illumination := illuminationOf phase
    distance := distanceOf d
    zodiac := getZodiacSign date.time
    moonName := getSpecialMoonName date.month (getPhaseName phase) }

/-- `isSupermoon` of the source. -/
def isSupermoon (data : MoonPhaseData) : Prop :=
  data.phaseName = "Full Moon" ∧ data.distance < 360000

/-- `isMicromoon` of the source. -/
def isMicromoon (data : MoonPhaseData) : Prop :=
  data.phaseName = "Full Moon" ∧ data.distance > 400000

theorem calculateMoonPhase_age (date : JSDate) :
    (calculateMoonPhase date).age = doubleMod (daysSinceNewMoon date) LUNAR_CYCLE := rfl

theorem calculateMoonPhase_phase (date : JSDate) :
    (calculateMoonPhase date).phase =
      doubleMod (daysSinceNewMoon date) LUNAR_CYCLE / LUNAR_CYCLE := rfl

theorem calculateMoonPhase_phaseName (date : JSDate) :
    (calculateMoonPhase date).phaseName =
      getPhaseName (doubleMod (daysSinceNewMoon date) LUNAR_CYCLE / LUNAR_CYCLE) := rfl

theorem calculateMoonPhase_illumination (date : JSDate) :
    (calculateMoonPhase date).illumination =
      illuminationOf (doubleMod (daysSinceNewMoon date) LUNAR_CYCLE / LUNAR_CYCLE) := rfl

theorem calculateMoonPhase_distance (date : JSDate) :
    (calculateMoonPhase date).distance = distanceOf (daysSinceNewMoon date) := rfl

theorem calculateMoonPhase_zodiac (date : JSDate) :
    (calculateMoonPhase date).zodiac = getZodiacSign date.time := rfl

theorem calculateMoonPhase_moonName (date : JSDate) :
    (calculateMoonPhase date).moonName =
      getSpecialMoonName date.month
        (getPhaseName (doubleMod (daysSinceNewMoon date) LUNAR_CYCLE / LUNAR_CYCLE)) := rfl

theorem LUNAR_CYCLE_pos : (0:ℚ) < LUNAR_CYCLE := by norm_num [LUNAR_CYCLE]

theorem msPerDay_ne_zero : msPerDay ≠ 0 := by norm_num [msPerDay]

/-- C5: for every representable input date — in particular every date strictly
before the reference new moon 2024-01-11T11:57:00Z — the `age` field returned
by `calculateMoonPhase` lies in `[0, 29.53058867)`; the double-mod
normalisation makes it non-negative regardless of the sign of the
elapsed-days value. -/
theorem c5_age_in_range (date : JSDate) :
    0 ≤ (calculateMoonPhase date).age ∧ (calculateMoonPhase date).age < LUNAR_CYCLE := by
  rw [calculateMoonPhase_age]
  exact ⟨doubleMod_nonneg LUNAR_CYCLE_pos, doubleMod_lt LUNAR_CYCLE_pos⟩

/-- C6: for every input date the record returned by `calculateMoonPhase`
satisfies `phase = age / 29.53058867` exactly: the `phase` field is the `age`
field divided by the synodic-period constant. -/
theorem c6_phase_eq_age_div_cycle (date : JSDate) :
    (calculateMoonPhase date).phase = (calculateMoonPhase date).age / LUNAR_CYCLE := rfl

/-- C7: shifting the input date by one synodic month (29.53058867 days, added
to the timestamp in milliseconds) leaves both the `phase` fraction and the
`phaseName` of `calculateMoonPhase` unchanged, for every starting instant and
any calendar months of the two dates. -/
theorem c7_synodic_periodicity (t : ℚ) (m m2 : Fin 12) :
    (calculateMoonPhase ⟨t + LUNAR_CYCLE * msPerDay, m2⟩).phase =
        (calculateMoonPhase ⟨t, m⟩).phase ∧
      (calculateMoonPhase ⟨t + LUNAR_CYCLE * msPerDay, m2⟩).phaseName =
        (calculateMoonPhase ⟨t, m⟩).phaseName := by
  have hms : msPerDay ≠ 0 := msPerDay_ne_zero
  have hd : daysSinceNewMoon ⟨t + LUNAR_CYCLE * msPerDay, m2⟩ =
      daysSinceNewMoon ⟨t, m⟩ + LUNAR_CYCLE := by
    show (t + LUNAR_CYCLE * msPerDay - KNOWN_NEW_MOON) / msPerDay =
      (t - KNOWN_NEW_MOON) / msPerDay + LUNAR_CYCLE
    field_simp
    ring
  have hage : doubleMod (daysSinceNewMoon ⟨t + LUNAR_CYCLE * msPerDay, m2⟩) LUNAR_CYCLE =
      doubleMod (daysSinceNewMoon ⟨t, m⟩) LUNAR_CYCLE := by
    rw [hd, doubleMod_add_self LUNAR_CYCLE_pos]
  exact ⟨by rw [calculateMoonPhase_phase, calculateMoonPhase_phase, hage],
    by rw [calculateMoonPhase_phaseName, calculateMoonPhase_phaseName, hage]⟩

/-- C4: for every input date, including dates before the reference new moon
where the code's single JS remainder makes the anomalistic phase negative,
the `distance` field of `calculateMoonPhase` lies in `[356500, 406700]`. -/
theorem c4_distance_in_bounds (date : JSDate) :
    356500 ≤ (calculateMoonPhase date).distance ∧
      (calculateMoonPhase date).distance ≤ 406700 := by
  rw [calculateMoonPhase_distance]
  unfold distanceOf
  have h1 := Real.neg_one_le_cos
    (((anomalisticPhase (daysSinceNewMoon date) : ℚ) : ℝ) * 2 * Real.pi)
  have h2 := Real.cos_le_one
    (((anomalisticPhase (daysSinceNewMoon date) : ℚ) : ℝ) * 2 * Real.pi)
  have hmin : ((LUNAR_DISTANCE_MIN : ℚ) : ℝ) = 356500 := by norm_num [LUNAR_DISTANCE_MIN]
  have hmax : ((LUNAR_DISTANCE_MAX : ℚ) : ℝ) = 406700 := by norm_num [LUNAR_DISTANCE_MAX]
  rw [hmin, hmax]
  constructor <;> nlinarith

/-- C8: for every input date the `illumination` field of `calculateMoonPhase`
lies in `[0, 100]`, and it equals `(1 - cos(phase * 2 * pi)) / 2 * 100` where
`phase` is the record's phase fraction. -/
theorem c8_illumination_formula_and_bounds (date : JSDate) :
    (0 ≤ (calculateMoonPhase date).illumination ∧
        (calculateMoonPhase date).illumination ≤ 100) ∧
      (calculateMoonPhase date).illumination =
        (1 - Real.cos (((calculateMoonPhase date).phase : ℝ) * 2 * Real.pi)) / 2 * 100 := by
  refine ⟨?_, rfl⟩
  rw [calculateMoonPhase_illumination]
  unfold illuminationOf
  have h1 := Real.neg_one_le_cos
    (((doubleMod (daysSinceNewMoon date) LUNAR_CYCLE / LUNAR_CYCLE : ℚ) : ℝ) * 2 * Real.pi)
  have h2 := Real.cos_le_one
    (((doubleMod (daysSinceNewMoon date) LUNAR_CYCLE / LUNAR_CYCLE : ℚ) : ℝ) * 2 * Real.pi)
  constructor <;> nlinarith

/-- C10: on any `MoonPhaseData` record, `isSupermoon` and `isMicromoon` are
mutually exclusive: a supermoon needs `distance < 360000` while a micromoon
needs `distance > 400000`. -/
theorem c10_supermoon_micromoon_exclusive (data : MoonPhaseData) :
    isSupermoon data → ¬ isMicromoon data := by
  intro hs hm
  have h1 : data.distance < 360000 := hs.2
  have h2 : data.distance > 400000 := hm.2
  linarith

/-- C10 witness: a concrete full-moon record at perigee distance is a
supermoon, and by `c10_supermoon_micromoon_exclusive` not a micromoon. -/
theorem c10_witness :
    isSupermoon ⟨1/2, LUNAR_CYCLE / 2, "Full Moon", 100, 356500, none, none⟩ ∧
      ¬ isMicromoon ⟨1/2, LUNAR_CYCLE / 2, "Full Moon", 100, 356500, none, none⟩ := by
  have hs : isSupermoon ⟨1/2, LUNAR_CYCLE / 2, "Full Moon", 100, 356500, none, none⟩ := by
    refine ⟨rfl, ?_⟩
    show (356500 : ℝ) < 360000
    norm_num
  exact ⟨hs, c10_supermoon_micromoon_exclusive _ hs⟩

theorem getPhaseName_cases (q : ℚ) :
    getPhaseName q = "New Moon" ∨ getPhaseName q = "Waxing Crescent" ∨
      getPhaseName q = "First Quarter" ∨ getPhaseName q = "Waxing Gibbous" ∨
      getPhaseName q = "Full Moon" ∨ getPhaseName q = "Waning Gibbous" ∨
      getPhaseName q = "Last Quarter" ∨ getPhaseName q = "Waning Crescent" := by
  unfold getPhaseName
  split_ifs <;> tauto

/-- C9: for every input date, the `moonName` field of `calculateMoonPhase` is
non-null only when the record's `phaseName` is exactly `"Full Moon"`; among the
8 reachable phase names, `"Full Moon"` is the only one containing the
substring `"Full"` that `getSpecialMoonName` tests for. -/
theorem c9_special_name_only_full (date : JSDate)
    (h : (calculateMoonPhase date).moonName ≠ none) :
    (calculateMoonPhase date).phaseName = "Full Moon" := by
  rw [calculateMoonPhase_moonName] at h
  rw [calculateMoonPhase_phaseName]
  unfold getSpecialMoonName at h
  by_cases hf : "Full".toList <:+:
      (getPhaseName (doubleMod (daysSinceNewMoon date) LUNAR_CYCLE / LUNAR_CYCLE)).toList
  · rcases getPhaseName_cases (doubleMod (daysSinceNewMoon date) LUNAR_CYCLE / LUNAR_CYCLE)
      with hc | hc | hc | hc | hc | hc | hc | hc <;> rw [hc] at hf ⊢ <;>
      first
        | rfl
        | exact absurd hf (by decide)
  · rw [if_neg hf] at h
    exact absurd rfl h

/-- C9 witness: at the reference new moon plus half a synodic month the phase
name is `"Full Moon"` and the special name is non-null (`"Wolf Moon"`), so the
hypothesis of `c9_special_name_only_full` is satisfiable. -/
theorem c9_witness :
    (calculateMoonPhase ⟨KNOWN_NEW_MOON + LUNAR_CYCLE * msPerDay / 2, 0⟩).moonName ≠ none ∧
      (calculateMoonPhase ⟨KNOWN_NEW_MOON + LUNAR_CYCLE * msPerDay / 2, 0⟩).phaseName =
        "Full Moon" := by
  have hms : msPerDay ≠ 0 := msPerDay_ne_zero
  have hC : LUNAR_CYCLE ≠ 0 := LUNAR_CYCLE_pos.ne'
  have hd : daysSinceNewMoon ⟨KNOWN_NEW_MOON + LUNAR_CYCLE * msPerDay / 2, 0⟩ =
      LUNAR_CYCLE / 2 := by
    show (KNOWN_NEW_MOON + LUNAR_CYCLE * msPerDay / 2 - KNOWN_NEW_MOON) / msPerDay =
      LUNAR_CYCLE / 2
    field_simp
    ring
  have hage : doubleMod (LUNAR_CYCLE / 2) LUNAR_CYCLE = LUNAR_CYCLE / 2 := by
    rw [doubleMod_eq LUNAR_CYCLE_pos]
    have harg : LUNAR_CYCLE / 2 / LUNAR_CYCLE = (1:ℚ)/2 := by
      field_simp
      ring
    rw [harg, Int.fract_eq_self.mpr (by norm_num)]
    ring
  have hphase : doubleMod (LUNAR_CYCLE / 2) LUNAR_CYCLE / LUNAR_CYCLE = (1:ℚ)/2 := by
    rw [hage]
    field_simp
    ring
  have hname : getPhaseName ((1:ℚ)/2) = "Full Moon" := by
    unfold getPhaseName
    norm_num
  have h : (calculateMoonPhase ⟨KNOWN_NEW_MOON + LUNAR_CYCLE * msPerDay / 2, 0⟩).moonName ≠
      none := by
    rw [calculateMoonPhase_moonName, hd, hphase, hname]
    unfold getSpecialMoonName
    rw [if_pos (by decide)]
    exact Option.some_ne_none _
  exact ⟨h, c9_special_name_only_full _ h⟩

theorem jsTrunc_eval_nonneg {q : ℚ} {n : ℤ} (h0 : 0 ≤ q) (h1 : (n:ℚ) ≤ q)
    (h2 : q < n + 1) : jsTrunc q = n := by
  unfold jsTrunc
  rw [if_pos h0]
  exact Int.floor_eq_iff.mpr ⟨h1, h2⟩

theorem jsTrunc_eval_neg {q : ℚ} {n : ℤ} (h0 : ¬ 0 ≤ q) (h1 : (n:ℚ) - 1 < q)
    (h2 : q ≤ n) : jsTrunc q = n := by
  unfold jsTrunc
  rw [if_neg h0]
  exact Int.ceil_eq_iff.mpr ⟨h1, h2⟩

theorem jsMod_eval {x p : ℚ} {n : ℤ} (h : jsTrunc (x / p) = n) :
    jsMod x p = x - p * n := by
  unfold jsMod
  rw [h]

/-- C1: evaluation of the code at the failing input.  At the Unix epoch
1970-01-01T00:00:00Z (`getTime() = 0`, a date decades before the zodiac
reference epoch), `zodiacPosition` is negative (the single JS remainder keeps
the sign of its left operand), `Math.floor` of it is a negative index, the
array read is `undefined`, and so the `zodiac` field of the returned record is
not one of the 12 zodiac names. -/
theorem c1_zodiac_undefined_at_epoch :
    (calculateMoonPhase ⟨0, 0⟩).zodiac = none := by
  rw [calculateMoonPhase_zodiac]
  have harg : daysSinceRef 0 / siderealMonth * 12 + 9 = -236430105051/27321661 := by
    unfold daysSinceRef REF_DATE msPerDay siderealMonth
    norm_num
  have htr : jsTrunc ((-236430105051/27321661 : ℚ) / 12) = -721 :=
    jsTrunc_eval_neg (by norm_num) (by norm_num) (by norm_num)
  have hpos : zodiacPosition 0 = -43094079/27321661 := by
    unfold zodiacPosition
    rw [harg, jsMod_eval htr]
    norm_num
  have hfloor : ⌊zodiacPosition 0⌋ = -2 := by
    rw [hpos]
    refine Int.floor_eq_iff.mpr ⟨by norm_num, by norm_num⟩
  unfold getZodiacSign
  rw [hfloor, if_pos (by norm_num)]

theorem daysSinceRef_nonneg_base : 0 ≤ daysSinceRef REF_DATE := by
  unfold daysSinceRef
  simp

/-- Zodiac periodicity helper: for any date at or after the zodiac reference
epoch, advancing the timestamp by any whole number of sidereal months leaves
`getZodiacSign` unchanged (the position argument grows by an exact multiple of
12 and the remainder by 12 is unaffected while it stays non-negative). -/
theorem getZodiacSign_add_sidereal (t : ℚ) (h : 0 ≤ daysSinceRef t) (k : ℕ) :
    getZodiacSign (t + (k:ℚ) * (siderealMonth * msPerDay)) = getZodiacSign t := by
  have hbase : 0 ≤ daysSinceRef t / siderealMonth * 12 + 9 := by
    have h1 : 0 ≤ daysSinceRef t / siderealMonth :=
      div_nonneg h (by norm_num [siderealMonth])
    nlinarith
  have hpos : zodiacPosition (t + (k:ℚ) * (siderealMonth * msPerDay)) =
      zodiacPosition t := by
    unfold zodiacPosition
    have hms : msPerDay ≠ 0 := msPerDay_ne_zero
    have hsm : siderealMonth ≠ 0 := by norm_num [siderealMonth]
    have harg : daysSinceRef (t + (k:ℚ) * (siderealMonth * msPerDay)) / siderealMonth *
        12 + 9 = (daysSinceRef t / siderealMonth * 12 + 9) + 12 * (k:ℚ) := by
      unfold daysSinceRef
      field_simp
      ring
    rw [harg, jsMod_add_nat_mul hbase (by norm_num) k]
  unfold getZodiacSign
  rw [hpos]

/-- C2 counterexample: starting at the zodiac reference date
2024-01-01T00:00:00Z, the 12 calls on dates spaced exactly one sidereal month
(27.321661 days) apart all return the same zodiac sign "Capricorn" — not the
12 signs in cyclic order each exactly once as the claim states. -/
theorem c2_counterexample :
    ((List.range 12).map fun (k : ℕ) =>
        (calculateMoonPhase ⟨REF_DATE + (k:ℚ) * (siderealMonth * msPerDay), 0⟩).zodiac) =
      List.replicate 12 (some ("Capricorn")) := by
  have harg : daysSinceRef REF_DATE / siderealMonth * 12 + 9 = (9:ℚ) := by
    unfold daysSinceRef
    simp
  have htr : jsTrunc ((9:ℚ) / 12) = 0 :=
    jsTrunc_eval_nonneg (by norm_num) (by norm_num) (by norm_num)
  have hpos : zodiacPosition REF_DATE = 9 := by
    unfold zodiacPosition
    rw [harg, jsMod_eval htr]
    norm_num
  have h0 : getZodiacSign REF_DATE = some ("Capricorn") := by
    unfold getZodiacSign
    rw [hpos]
    have hfloor : ⌊(9:ℚ)⌋ = 9 := by norm_num
    rw [hfloor, if_neg (by norm_num)]
    rfl
  have hk : ∀ k : ℕ,
      (calculateMoonPhase ⟨REF_DATE + (k:ℚ) * (siderealMonth * msPerDay), 0⟩).zodiac =
        some ("Capricorn") := by
    intro k
    rw [calculateMoonPhase_zodiac,
      getZodiacSign_add_sidereal REF_DATE daysSinceRef_nonneg_base k, h0]
  have hlen : ((List.range 12).map fun (k : ℕ) =>
      (calculateMoonPhase ⟨REF_DATE + (k:ℚ) * (siderealMonth * msPerDay), 0⟩).zodiac).length =
      12 := by simp
  conv_rhs => rw [← hlen]
  rw [List.eq_replicate_length]
  intro b hb
  rcases List.mem_map.mp hb with ⟨k, _, hbk⟩
  rw [← hbk]
  exact hk k

/-- C2 corrected: the sidereal month is the *full* period of the zodiac cycle,
so for any starting date at or after the zodiac reference epoch, the 12 calls
of `calculateMoonPhase` on dates spaced exactly one sidereal month apart all
yield the *same* zodiac sign (rather than the 12 signs once each). -/
theorem c2_sidereal_spacing_same_sign (t : ℚ) (m m2 : Fin 12)
    (h : 0 ≤ daysSinceRef t) (k : ℕ) :
    (calculateMoonPhase ⟨t + (k:ℚ) * (siderealMonth * msPerDay), m2⟩).zodiac =
      (calculateMoonPhase ⟨t, m⟩).zodiac := by
  rw [calculateMoonPhase_zodiac, calculateMoonPhase_zodiac]
  exact getZodiacSign_add_sidereal t h k

/-- C2 witness: the corrected statement instantiated at the zodiac reference
date itself with a one-sidereal-month shift. -/
theorem c2_witness :
    0 ≤ daysSinceRef REF_DATE ∧
      (calculateMoonPhase ⟨REF_DATE + ((1:ℕ):ℚ) * (siderealMonth * msPerDay), 0⟩).zodiac =
        (calculateMoonPhase ⟨REF_DATE, 0⟩).zodiac :=
  ⟨daysSinceRef_nonneg_base,
    c2_sidereal_spacing_same_sign REF_DATE 0 0 daysSinceRef_nonneg_base 1⟩

/-- Anomalistic fraction exactly as the specification words it (§4.1 step 7):
`((d mod 27.55) + 27.55) mod 27.55 / 27.55`, the double-mod form that is
non-negative for every `d`. -/
def anomalisticFractionSpec (d : ℚ) : ℚ := doubleMod d 27.55 / 27.55

/-- Distance exactly as the specification words it (§4.1 step 7), built on the
double-mod anomalistic fraction. -/
noncomputable def distanceSpec (d : ℚ) : ℝ :=
  (LUNAR_DISTANCE_MIN : ℝ) +
    (1 - Real.cos ((anomalisticFractionSpec d : ℝ) * 2 * Real.pi)) / 2 *
      ((LUNAR_DISTANCE_MAX : ℝ) - (LUNAR_DISTANCE_MIN : ℝ))

/-- C3 counterexample: at the date 2023-12-28T17:49:00Z (13.775 days, half an
anomalistic month, before the reference new moon) the code's anomalistic
fraction is `-1/2` — negative, produced by a single JS remainder — while the
double-mod form named by the claim gives `+1/2`; the two are different, so the
code does not compute the claimed double-mod fraction. -/
theorem c3_counterexample :
    anomalisticPhase (daysSinceNewMoon ⟨1703784060000, 0⟩) = -(1/2) ∧
      anomalisticFractionSpec (daysSinceNewMoon ⟨1703784060000, 0⟩) = 1/2 := by
  have hd : daysSinceNewMoon ⟨1703784060000, 0⟩ = -(551/40) := by
    unfold daysSinceNewMoon KNOWN_NEW_MOON msPerDay
    norm_num
  have htr1 : jsTrunc ((-(551/40) : ℚ) / 27.55) = 0 :=
    jsTrunc_eval_neg (by norm_num) (by norm_num) (by norm_num)
  have h1 : jsMod (-(551/40) : ℚ) 27.55 = -(551/40) := by
    rw [jsMod_eval htr1]
    norm_num
  constructor
  · rw [hd]
    unfold anomalisticPhase
    rw [h1]
    norm_num
  · rw [hd]
    unfold anomalisticFractionSpec doubleMod
    have htr2 : jsTrunc (((-(551/40) : ℚ) + 27.55) / 27.55) = 0 :=
      jsTrunc_eval_nonneg (by norm_num) (by norm_num) (by norm_num)
    have h2 : jsMod ((-(551/40) : ℚ) + 27.55) 27.55 = 551/40 := by
      rw [jsMod_eval htr2]
      norm_num
    rw [h1, h2]
    norm_num

/-- C3 corrected: the code computes the anomalistic fraction with a *single*
JS remainder, `(d % 27.55) / 27.55`, which is negative for dates before the
reference new moon; nevertheless, because the cosine is `2π`-periodic, the
`distance` field of `calculateMoonPhase` equals, for every input date, the
value of the specification's step-7 formula built on the double-mod fraction,
with perigee 356500 km and apogee 406700 km. -/
theorem c3_distance_matches_spec_formula (date : JSDate) :
    (calculateMoonPhase date).distance = distanceSpec (daysSinceNewMoon date) := by
  rw [calculateMoonPhase_distance]
  unfold distanceOf distanceSpec anomalisticPhase anomalisticFractionSpec
  have hp : (0:ℚ) < 27.55 := by norm_num
  rcases doubleMod_cases (x := daysSinceNewMoon date) hp with h | h
  · rw [h]
  · rw [h]
    have h2755 : ((27.55 : ℚ) : ℝ) ≠ 0 := by norm_num
    have harg : (((jsMod (daysSinceNewMoon date) 27.55 + 27.55) / 27.55 : ℚ) : ℝ) * 2 *
        Real.pi =
        ((jsMod (daysSinceNewMoon date) 27.55 / 27.55 : ℚ) : ℝ) * 2 * Real.pi +
          2 * Real.pi := by
      push_cast
      field_simp
      ring
    rw [harg, Real.cos_add_two_pi]

end LunarMarket
